import Mathlib

/-!
Verification of the configuration-resolution and URL-set construction core of
the `httpbench` load-testing tool (`src/config.rs`).

The Rust code delegates URL parsing and RFC 3986 joining to the external `url`
crate.  We embed that library abstractly as a structure `UrlLib` carrying a
`parse` classifier and a `join` operation, and embed `load_urls` and
`Config::from_cmdline` parametrically over it.  A concrete instance
(`modelLib`), modelled from the spec's description of the library's behaviour,
is used to instantiate witnesses on concrete inputs.
-/

/-- Outcome classification of the external URL library's parse, as matched on
by `load_urls`: the `RelativeUrlWithoutBase` variant is distinguished from
every other parse error. -/
inductive UrlParseError where
  | relativeUrlWithoutBase
  | other (msg : String)
  deriving DecidableEq, Repr

/-- Abstract interface of the external `url` crate as used by `config.rs`:
`parse` returns `none` on success (the parsed value itself is discarded by the
code in the `Ok` branch) and the error otherwise; `join base s` is
`base.join(s)` followed by the `.into()` serialization to a string. -/
structure UrlLib where
  parse : String → Option UrlParseError
  join : String → String → Except UrlParseError String

/-- Result of resolving one candidate URL: the output string and how many
warnings were emitted for this candidate. -/
structure Resolved where
  url : String
  warnings : Nat
  deriving DecidableEq, Repr

/-- Body of the per-candidate loop of `load_urls` (config.rs lines 239-250):
an already-absolute candidate is kept, a relative-without-base candidate is
replaced by the join against the base, and every other failure (parse or join)
keeps the candidate and warns once. -/
def resolveUrl (lib : UrlLib) (base : String) (u : String) : Resolved :=
  match lib.parse u with
  | none => { url := u, warnings := 0 }
  | some UrlParseError.relativeUrlWithoutBase =>
    match lib.join base u with
    | Except.ok prefixed => { url := prefixed, warnings := 0 }
    | Except.error _ => { url := u, warnings := 1 }
  | some (UrlParseError.other _) => { url := u, warnings := 1 }

/-- Strip one trailing carriage return, as `BufRead::lines` does after
removing the newline byte. -/
def stripCRl (l : List Char) : List Char :=
  if l.getLast? = some '\r' then l.dropLast else l

/-- Accumulating scanner behind `rustLines`: `cur` holds the current line in
reverse.  At a newline the line is emitted with a trailing CR stripped; at end
of input a non-empty final chunk is emitted verbatim (Rust strips the CR only
when a newline byte was present). -/
def linesAux : List Char → List Char → List (List Char)
  | cur, [] => if cur.isEmpty then [] else [cur.reverse]
  | cur, c :: cs =>
    if c = '\n' then stripCRl cur.reverse :: linesAux [] cs
    else linesAux (c :: cur) cs

/-- Rust's `BufRead::lines` over an in-memory file content: split at newline
bytes, strip the newline and a preceding CR, and do not produce a final empty
line for a trailing newline.  Interior empty lines are produced. -/
def rustLines (s : String) : List String :=
  (linesAux [] s.data).map fun l => String.mk l

/-- Where the initial candidate list comes from: the contents of the URL file,
or the inline positional arguments. -/
inductive UrlSource where
  | file (contents : String)
  | args (urls : List String)

/-- The first half of `load_urls` (config.rs lines 223-233): read the file
line by line, or take the inline arguments verbatim. -/
def initialUrls : UrlSource → List String
  | UrlSource.file c => rustLines c
  | UrlSource.args us => us

/-- Embedding of `load_urls` (config.rs lines 217-254).  When a prefix is
supplied the base is parsed first (the `?` on line 238 propagates its error);
then each candidate is resolved in order by `resolveUrl`.  The result carries
the resolved list and the total number of warnings emitted. -/
def load_urls (lib : UrlLib) (pre : Option String) (src : UrlSource) :
    Except UrlParseError (List String × Nat) :=
  let urls := initialUrls src
  match pre with
  | none => Except.ok (urls, 0)
  | some p =>
    match lib.parse p with
    | some e => Except.error e
    | none =>
      let rs := urls.map (resolveUrl lib p)
      Except.ok (rs.map (fun r => r.url), (rs.map (fun r => r.warnings)).sum)

/-! ### A concrete model of the external URL library

The `url` crate is not part of this repository; the definitions below are
modelled from the spec's description of its behaviour and serve to instantiate
the parametric theorems on concrete inputs. -/

/-- Characters allowed in a URL scheme after the initial letter. -/
def isSchemeTail (c : Char) : Bool :=
  c.isAlphanum || c == '+' || c == '-' || c == '.'

/-- Scan past the scheme body: returns the characters after the terminating
colon, or `none` if the colon is never reached through scheme characters. -/
def schemeEnd : List Char → Option (List Char)
  | [] => none
  | c :: cs => if c = ':' then some cs else if isSchemeTail c then schemeEnd cs else none

/-- Modelled from the spec: a string "has a scheme" when an initial letter is
followed by scheme characters up to a colon; returns what follows the colon. -/
def afterScheme : List Char → Option (List Char)
  | [] => none
  | c :: cs => if c.isAlpha then schemeEnd cs else none

/-- Characters that terminate the authority component. -/
def isAuthEnd (c : Char) : Bool := c == '/' || c == '?' || c == '#'

/-- Modelled from the spec: the external library's parse classification.  A
string parses as absolute when it has a scheme and a non-empty authority
("fully-qualified absolute URL (scheme + authority)"); with no scheme at all it
fails with `RelativeUrlWithoutBase` ("it lacks a scheme/authority entirely");
any other shape is a different parse error. -/
def modelParse (s : String) : Option UrlParseError :=
  match afterScheme s.data with
  | none => some UrlParseError.relativeUrlWithoutBase
  | some rest =>
    match rest with
    | '/' :: '/' :: rest2 =>
      let auth := rest2.takeWhile (fun c => !isAuthEnd c)
      if auth.isEmpty then some (UrlParseError.other "empty host") else none
    | _ => some (UrlParseError.other "no authority")

/-- Split a base URL accepted by `modelParse` into its origin
(scheme + authority) and the remainder (path, query, fragment). -/
def originSplit (b : String) : Option (String × String) :=
  match afterScheme b.data with
  | none => none
  | some rest =>
    match rest with
    | '/' :: '/' :: rest2 =>
      let auth := rest2.takeWhile (fun c => !isAuthEnd c)
      if auth.isEmpty then none
      else
        let schemeLen := b.data.length - rest.length
        some (String.mk (b.data.take schemeLen ++ '/' :: '/' :: auth),
              String.mk (rest2.drop auth.length))
    | _ => none

/-- Everything up to and including the last slash of a path, or empty when the
path has no slash. -/
def dirChars (p : List Char) : List Char :=
  (p.reverse.dropWhile (fun c => c != '/')).reverse

/-- Modelled from the spec: RFC 3986 relative resolution of a reference
against an absolute base ("relative path, query, and fragment combine with the
base's scheme/authority/path").  A reference starting with a slash replaces
the base path; otherwise the reference is merged onto the base path's
directory. -/
def modelJoin (b : String) (r : String) : Except UrlParseError String :=
  match originSplit b with
  | none => Except.error (UrlParseError.other "invalid base")
  | some (origin, path) =>
    match r.data with
    | '/' :: _ => Except.ok (origin ++ r)
    | _ =>
      let d := dirChars path.data
      let d := if d.isEmpty then ['/'] else d
      Except.ok (origin ++ String.mk d ++ r)

/-- The concrete library instance used by witnesses. -/
def modelLib : UrlLib := { parse := modelParse, join := modelJoin }

/-! ### The configuration model (`Config::from_cmdline`) -/

/-- HTTP methods supported by the tool (config.rs lines 22-26). -/
inductive HttpMethod where
  | Get
  | Post
  | Put
  deriving DecidableEq, Repr

/-- Iteration order over the URL set (config.rs lines 42-45). -/
inductive RequestOrder where
  | Sequential
  | Random
  deriving DecidableEq, Repr

/-- Shape of inter-request delays (config.rs lines 47-51). -/
inductive DelayDistribution where
  | Constant
  | Uniform
  | NegativeExponential
  deriving DecidableEq, Repr

/-- Uppercase a string character by character, as Rust's `to_uppercase` does
on the ASCII method names involved here. -/
def upperStr (s : String) : String := String.mk (s.data.map Char.toUpper)

/-- Embedding of `HttpMethod::from_str` (config.rs lines 28-40): uppercase the
input and accept exactly GET, POST and PUT. -/
def HttpMethod.from_str (s : String) : Option HttpMethod :=
  let u := upperStr s
  if u = "GET" then some HttpMethod.Get
  else if u = "POST" then some HttpMethod.Post
  else if u = "PUT" then some HttpMethod.Put
  else none

/-- The resolved configuration (config.rs lines 11-19).  The slow-request
percentile is an arbitrary-precision rational standing in for the `f64` the
code copies through untouched. -/
structure Config where
  concurrency : Nat
  requests : Nat
  order : RequestOrder
  delay_ms : Nat
  delay_distrib : DelayDistribution
  slow_percentile : Option ℚ
  http_method : HttpMethod
  deriving DecidableEq, Repr

/-- Raw values as they stand after clap's own per-argument parsing.  Since the
embedding cannot perform file I/O, `urlfile` and `payloads_file` carry the
CONTENTS of the respective file when the flag was supplied. -/
structure CmdInputs where
  concurrency : Nat
  requests : Nat
  order : String
  delay : Nat
  delaydist : String
  urlPref : Option String
  urlfile : Option String
  args_urls : Option (List String)
  http_method : String
  payloads_file : Option String
  reportslow : Option ℚ
  deriving Repr

/-- Fatal configuration failures.  The Rust code exits through clap's usage
error, the `?` operator, `expect`, or `assert!`; following the spec's design
note these are re-expressed as typed errors. -/
inductive ConfigError where
  | usage
  | urlError (e : UrlParseError)
  | unsupportedMethod
  | emptyPayloads
  deriving DecidableEq, Repr

/-- Modelled from the spec: clap's enforcement of the declarations
`required_unless_present("urls")` and `conflicts_with("urls")` on the URL-file
argument (config.rs lines 111-112) — exactly one of the URL file and the
inline URL arguments must be present. -/
def clapAccepts (inp : CmdInputs) : Bool :=
  (inp.urlfile.isSome && inp.args_urls.isNone)
    || (inp.urlfile.isNone && inp.args_urls.isSome)

/-- The URL source handed to `load_urls`: the file when present, otherwise the
inline arguments (config.rs lines 150-154 with lines 223-233). -/
def urlSourceOf (inp : CmdInputs) : UrlSource :=
  match inp.urlfile with
  | some c => UrlSource.file c
  | none => UrlSource.args (inp.args_urls.getD [])

/-- The payload list (config.rs lines 175-188): the lines of the payload file
when one was supplied, empty otherwise. -/
def payloadsOf (inp : CmdInputs) : List String :=
  match inp.payloads_file with
  | some c => rustLines c
  | none => []

/-- Embedding of `Config::from_cmdline` (config.rs lines 60-214): clap's
cross-argument check, URL loading and prefix resolution, scalar decoding,
method parsing, payload loading, and the POST/PUT payload-presence assertion,
in the order the code performs them. -/
def from_cmdline (lib : UrlLib) (inp : CmdInputs) :
    Except ConfigError (Config × List String × List String) :=
  if clapAccepts inp = false then Except.error ConfigError.usage
  else
    match load_urls lib inp.urlPref (urlSourceOf inp) with
    | Except.error e => Except.error (ConfigError.urlError e)
    | Except.ok (urls, _) =>
      let order := if inp.order = "s" then RequestOrder.Sequential else RequestOrder.Random
      let delay_distrib :=
        if inp.delaydist = "u" then DelayDistribution.Uniform
        else if inp.delaydist = "ne" then DelayDistribution.NegativeExponential
        else DelayDistribution.Constant
      match HttpMethod.from_str inp.http_method with
      | none => Except.error ConfigError.unsupportedMethod
      | some http_method =>
        let payloads := payloadsOf inp
        if (http_method = HttpMethod.Post ∨ http_method = HttpMethod.Put) ∧ payloads = []
        then Except.error ConfigError.emptyPayloads
        else Except.ok
          ({ concurrency := inp.concurrency
             requests := inp.requests
             order := order
             delay_ms := inp.delay
             delay_distrib := delay_distrib
             slow_percentile := inp.reportslow
             http_method := http_method }, urls, payloads)

/-- A baseline input: inline URL, GET, no prefix, no payloads — used to build
concrete instances for witnesses and counterexamples. -/
def baseInp : CmdInputs :=
  { concurrency := 10
    requests := 100
    order := "r"
    delay := 0
    delaydist := "c"
    urlPref := none
    urlfile := none
    args_urls := some ["http://localhost:8070/abc123?def=456"]
    http_method := "GET"
    payloads_file := none
    reportslow := none }

/-! ### Helper lemmas -/

/-- With no prefix, `load_urls` returns the initial candidates with no
warnings. -/
theorem load_urls_none (lib : UrlLib) (src : UrlSource) :
    load_urls lib none src = Except.ok (initialUrls src, 0) := rfl

/-- With a prefix that parses, `load_urls` maps `resolveUrl` over the
candidates. -/
theorem load_urls_some (lib : UrlLib) (p : String) (src : UrlSource)
    (hp : lib.parse p = none) :
    load_urls lib (some p) src =
      Except.ok (((initialUrls src).map (resolveUrl lib p)).map (fun r => r.url),
        (((initialUrls src).map (resolveUrl lib p)).map (fun r => r.warnings)).sum) := by
  simp [load_urls, hp]

/-! ### The claims -/

/-- Claim C1: a candidate that the URL library parses successfully (a
fully-qualified absolute URL) is left unchanged by prefix resolution, with no
warning, for every prefix. -/
theorem absolute_url_unchanged (lib : UrlLib) (base u : String)
    (h : lib.parse u = none) :
    resolveUrl lib base u = { url := u, warnings := 0 } := by
  simp [resolveUrl, h]

/-- Witness for C1 at the spec's own example: the absolute candidate is kept
verbatim under the prefix. -/
theorem absolute_url_unchanged_witness :
    modelLib.parse "http://localhost:8070/abc123?def=456" = none ∧
      resolveUrl modelLib "http://localhost:8070/" "http://localhost:8070/abc123?def=456" =
        { url := "http://localhost:8070/abc123?def=456", warnings := 0 } :=
  ⟨by rfl, absolute_url_unchanged modelLib "http://localhost:8070/"
    "http://localhost:8070/abc123?def=456" (by rfl)⟩

/-- Claim C2: a candidate whose parse fails with relative-URL-without-base is
replaced by the library's RFC 3986 join against the prefix, with no warning;
and since the joined output is absolute, resolving it again against the same
prefix yields the same value (idempotence). -/
theorem relative_url_join_idempotent (lib : UrlLib) (base r j : String)
    (hr : lib.parse r = some UrlParseError.relativeUrlWithoutBase)
    (hj : lib.join base r = Except.ok j)
    (habs : lib.parse j = none) :
    resolveUrl lib base r = { url := j, warnings := 0 } ∧
      resolveUrl lib base j = { url := j, warnings := 0 } := by
  constructor
  · simp [resolveUrl, hr, hj]
  · simp [resolveUrl, habs]

/-- Witness for C2 at the spec's example: `abc123?def=456` joined against
`http://localhost:8070/` gives the absolute URL, and resolving that output
again is the identity. -/
theorem relative_url_join_idempotent_witness :
    modelLib.parse "abc123?def=456" = some UrlParseError.relativeUrlWithoutBase ∧
      modelLib.join "http://localhost:8070/" "abc123?def=456" =
        Except.ok "http://localhost:8070/abc123?def=456" ∧
      modelLib.parse "http://localhost:8070/abc123?def=456" = none ∧
      resolveUrl modelLib "http://localhost:8070/" "abc123?def=456" =
        { url := "http://localhost:8070/abc123?def=456", warnings := 0 } ∧
      resolveUrl modelLib "http://localhost:8070/" "http://localhost:8070/abc123?def=456" =
        { url := "http://localhost:8070/abc123?def=456", warnings := 0 } := by
  refine ⟨by rfl, by rfl, by rfl, ?_⟩
  exact relative_url_join_idempotent modelLib "http://localhost:8070/" "abc123?def=456"
    "http://localhost:8070/abc123?def=456" (by rfl) (by rfl) (by rfl)

/-- Claim C5: with no prefix supplied, the loaded URL list is returned
unchanged whatever it contains, and no warning is emitted. -/
theorem no_url_pref_list_unchanged (lib : UrlLib) (urls : List String) :
    load_urls lib none (UrlSource.args urls) = Except.ok (urls, 0) := rfl

/-- Claim C10: when the supplied prefix itself fails to parse, `load_urls`
fails with that error whatever the candidates are, before any per-candidate
processing. -/
theorem invalid_url_pref_fatal (lib : UrlLib) (p : String) (src : UrlSource)
    (e : UrlParseError) (h : lib.parse p = some e) :
    load_urls lib (some p) src = Except.error e := by
  simp [load_urls, h]

/-- Witness for C10: a prefix with no scheme makes `load_urls` fail even
though the only candidate is already absolute. -/
theorem invalid_url_pref_fatal_witness :
    modelLib.parse "just/a/path" = some UrlParseError.relativeUrlWithoutBase ∧
      load_urls modelLib (some "just/a/path") (UrlSource.args ["http://localhost:8070/ok"]) =
        Except.error UrlParseError.relativeUrlWithoutBase :=
  ⟨by rfl, invalid_url_pref_fatal modelLib "just/a/path"
    (UrlSource.args ["http://localhost:8070/ok"]) UrlParseError.relativeUrlWithoutBase (by rfl)⟩

/-- Claim C3: a candidate that fails parsing for a reason other than
relative-URL-without-base (or whose join against the prefix fails) is kept
verbatim with exactly one warning; it stays at its position in the output
list, the list keeps its length, and the batch still succeeds with at least
one warning recorded. -/
theorem malformed_url_retained_one_warning (lib : UrlLib) (p : String)
    (urls : List String) (i : Nat) (u : String)
    (hp : lib.parse p = none) (hu : urls[i]? = some u)
    (hbad : (∃ m, lib.parse u = some (UrlParseError.other m)) ∨
      (lib.parse u = some UrlParseError.relativeUrlWithoutBase ∧
        ∃ e, lib.join p u = Except.error e)) :
    resolveUrl lib p u = { url := u, warnings := 1 } ∧
      ∃ out w, load_urls lib (some p) (UrlSource.args urls) = Except.ok (out, w) ∧
        out.length = urls.length ∧ out[i]? = some u ∧ 1 ≤ w := by
  have hres : resolveUrl lib p u = { url := u, warnings := 1 } := by
    rcases hbad with ⟨m, hm⟩ | ⟨hm, e, he⟩
    · simp [resolveUrl, hm]
    · simp [resolveUrl, hm, he]
  refine ⟨hres, _, _, load_urls_some lib p (UrlSource.args urls) hp, by simp [initialUrls],
    ?_, ?_⟩
  · simp [initialUrls, List.getElem?_map, hu, hres]
  · have hmem : u ∈ urls := List.getElem?_mem hu
    have h1 : (1 : Nat) ∈ (urls.map (resolveUrl lib p)).map (fun r => r.warnings) := by
      rw [List.map_map]
      exact List.mem_map.mpr ⟨u, hmem, by simp [hres]⟩
    simpa [initialUrls] using
      List.single_le_sum (fun x _ => Nat.zero_le x) 1 h1

/-- Witness for C3: the candidate `http://` has a scheme but an empty host, so
its parse fails with a non-relative error; it is kept at its position with one
warning while the other candidate is resolved normally. -/
theorem malformed_url_retained_one_warning_witness :
    modelLib.parse "http://localhost:8070/" = none ∧
      (["ok?x=1", "http://"])[1]? = some "http://" ∧
      modelLib.parse "http://" = some (UrlParseError.other "empty host") ∧
      resolveUrl modelLib "http://localhost:8070/" "http://" =
        { url := "http://", warnings := 1 } ∧
      ∃ out w,
        load_urls modelLib (some "http://localhost:8070/")
            (UrlSource.args ["ok?x=1", "http://"]) = Except.ok (out, w) ∧
          out.length = 2 ∧ out[1]? = some "http://" ∧ 1 ≤ w := by
  refine ⟨by rfl, by rfl, by rfl, ?_⟩
  exact malformed_url_retained_one_warning modelLib "http://localhost:8070/"
    ["ok?x=1", "http://"] 1 "http://" (by rfl) (by rfl)
    (Or.inl ⟨"empty host", by rfl⟩)

/-- Claim C4: with a valid prefix, the prefixing step is a pure,
order-preserving, length-preserving map: the batch succeeds, the output has
the same length, and the candidate at every index is exactly the resolution of
the input at that index. -/
theorem prefixing_order_length_preserving (lib : UrlLib) (p : String)
    (urls : List String) (hp : lib.parse p = none) :
    ∃ out w, load_urls lib (some p) (UrlSource.args urls) = Except.ok (out, w) ∧
      out.length = urls.length ∧
      ∀ i : Nat, out[i]? = (urls[i]?).map (fun u => (resolveUrl lib p u).url) := by
  refine ⟨_, _, load_urls_some lib p (UrlSource.args urls) hp, by simp [initialUrls], ?_⟩
  intro i
  simp only [initialUrls, List.map_map, List.getElem?_map]
  cases urls[i]? <;> rfl

/-- Witness for C4 at the spec's example list: three candidates in, three out,
each the resolution of its input. -/
theorem prefixing_order_length_preserving_witness :
    modelLib.parse "http://localhost:8070/" = none ∧
      ∃ out w,
        load_urls modelLib (some "http://localhost:8070/")
            (UrlSource.args
              ["http://localhost:8070/abc123?def=456", "abc123?def=456", "/abc123?def=456"]) =
          Except.ok (out, w) ∧
        out.length = 3 ∧
        ∀ i : Nat, out[i]? =
          ((["http://localhost:8070/abc123?def=456", "abc123?def=456",
            "/abc123?def=456"] : List String)[i]?).map
            (fun u => (resolveUrl modelLib "http://localhost:8070/" u).url) := by
  refine ⟨by rfl, ?_⟩
  exact prefixing_order_length_preserving modelLib "http://localhost:8070/"
    ["http://localhost:8070/abc123?def=456", "abc123?def=456", "/abc123?def=456"] (by rfl)

/-- Claim C6: when the resolved method is POST or PUT and the payload list is
empty, configuration resolution fails fatally; with a non-empty payload list
those methods pass the payload-presence check; and GET with no payload file
yields an empty payload list and passes validation. -/
theorem post_put_payload_check (lib : UrlLib) (inp : CmdInputs) (m : HttpMethod)
    (urls : List String) (w : Nat)
    (hclap : clapAccepts inp = true)
    (hload : load_urls lib inp.urlPref (urlSourceOf inp) = Except.ok (urls, w))
    (hm : HttpMethod.from_str inp.http_method = some m) :
    ((m = HttpMethod.Post ∨ m = HttpMethod.Put) → payloadsOf inp = [] →
        from_cmdline lib inp = Except.error ConfigError.emptyPayloads) ∧
      ((m = HttpMethod.Post ∨ m = HttpMethod.Put) → payloadsOf inp ≠ [] →
        ∃ cfg, from_cmdline lib inp = Except.ok (cfg, urls, payloadsOf inp)) ∧
      (m = HttpMethod.Get → inp.payloads_file = none →
        payloadsOf inp = [] ∧ ∃ cfg, from_cmdline lib inp = Except.ok (cfg, urls, [])) := by
  refine ⟨?_, ?_, ?_⟩
  · intro hpost hemp
    simp [from_cmdline, hclap, hload, hm, hemp, hpost]
  · intro hpost hne
    simp [from_cmdline, hclap, hload, hm, hne]
  · intro hget hnone
    have hemp : payloadsOf inp = [] := by simp [payloadsOf, hnone]
    subst hget
    refine ⟨hemp, ?_⟩
    simp [from_cmdline, hclap, hload, hm, hemp]

/-- Witness for C6: method POST with no payload file — resolution fails with
the payload-presence error before a plan is produced. -/
theorem post_put_payload_check_witness :
    clapAccepts { baseInp with http_method := "POST" } = true ∧
      load_urls modelLib ({ baseInp with http_method := "POST" }).urlPref
          (urlSourceOf { baseInp with http_method := "POST" }) =
        Except.ok (["http://localhost:8070/abc123?def=456"], 0) ∧
      HttpMethod.from_str ({ baseInp with http_method := "POST" }).http_method =
        some HttpMethod.Post ∧
      payloadsOf { baseInp with http_method := "POST" } = [] ∧
      from_cmdline modelLib { baseInp with http_method := "POST" } =
        Except.error ConfigError.emptyPayloads := by
  refine ⟨by rfl, by rfl, by rfl, by rfl, ?_⟩
  exact (post_put_payload_check modelLib { baseInp with http_method := "POST" }
    HttpMethod.Post ["http://localhost:8070/abc123?def=456"] 0
    (by rfl) (by rfl) (by rfl)).1 (Or.inl rfl) (by rfl)

/-- Claim C7: supplying neither of the two URL sources, or both, is rejected
as a usage error before any plan is produced. -/
theorem url_source_exactly_one (lib : UrlLib) (inp : CmdInputs)
    (h : (inp.urlfile = none ∧ inp.args_urls = none) ∨
      (inp.urlfile ≠ none ∧ inp.args_urls ≠ none)) :
    from_cmdline lib inp = Except.error ConfigError.usage := by
  have hc : clapAccepts inp = false := by
    cases hf : inp.urlfile <;> cases ha : inp.args_urls <;> simp_all [clapAccepts]
  simp [from_cmdline, hc]

/-- Witness for C7: no URL file and no inline URLs — usage error. -/
theorem url_source_exactly_one_witness :
    ({ baseInp with args_urls := none } : CmdInputs).urlfile = none ∧
      ({ baseInp with args_urls := none } : CmdInputs).args_urls = none ∧
      from_cmdline modelLib { baseInp with args_urls := none } =
        Except.error ConfigError.usage :=
  ⟨rfl, rfl, url_source_exactly_one modelLib { baseInp with args_urls := none }
    (Or.inl ⟨rfl, rfl⟩)⟩

/-! ### Line-splitting lemmas for the URL-file claim -/

/-- Serialize a list of lines into a file content with a newline terminator
after every line. -/
def unlines : List String → String
  | [] => ""
  | l :: ls => l ++ "\n" ++ unlines ls

/-- A line that a newline-terminated file can represent verbatim: it contains
no newline byte and does not end in a carriage return. -/
def goodLine (l : String) : Prop :=
  '\n' ∉ l.data ∧ l.data.getLast? ≠ some '\r'

instance (l : String) : Decidable (goodLine l) := by
  unfold goodLine; infer_instance

/-- A good line is untouched by the carriage-return stripping. -/
theorem stripCRl_of_goodLine (l : String) (h : goodLine l) : stripCRl l.data = l.data := by
  unfold stripCRl
  rw [if_neg h.2]

/-- One scan step over an ordinary character. -/
theorem linesAux_cons_ne (cur : List Char) (c : Char) (cs : List Char) (hc : ¬c = '\n') :
    linesAux cur (c :: cs) = linesAux (c :: cur) cs := by
  conv_lhs => rw [linesAux]
  rw [if_neg hc]

/-- One scan step over a newline: the accumulated line is emitted. -/
theorem linesAux_cons_nl (cur : List Char) (cs : List Char) :
    linesAux cur ('\n' :: cs) = stripCRl cur.reverse :: linesAux [] cs := by
  conv_lhs => rw [linesAux]
  rw [if_pos rfl]

/-- Scanning a newline-free chunk followed by a newline emits that chunk (with
CR stripping) on top of the scan of the rest. -/
theorem linesAux_append (l : List Char) (h : '\n' ∉ l) :
    ∀ cur cs, linesAux cur (l ++ '\n' :: cs) = stripCRl (cur.reverse ++ l) :: linesAux [] cs := by
  induction l with
  | nil =>
    intro cur cs
    rw [List.nil_append, linesAux_cons_nl, List.append_nil]
  | cons c l ih =>
    intro cur cs
    have hc : ¬(c = '\n') := by
      intro heq
      exact h (heq ▸ List.mem_cons_self c l)
    have hl : '\n' ∉ l := fun hm => h (List.mem_cons_of_mem c hm)
    rw [List.cons_append, linesAux_cons_ne cur c _ hc, ih hl (c :: cur) cs,
      List.reverse_cons, List.append_assoc, List.singleton_append]

/-- Round trip: reading back a newline-terminated file of good lines yields
exactly those lines, empty lines included. -/
theorem rustLines_unlines (ls : List String) (h : ∀ l ∈ ls, goodLine l) :
    rustLines (unlines ls) = ls := by
  induction ls with
  | nil => rfl
  | cons l ls ih =>
    have hl : goodLine l := h l (List.mem_cons_self l ls)
    have hls : ∀ x ∈ ls, goodLine x := fun x hx => h x (List.mem_cons_of_mem l hx)
    unfold rustLines unlines
    have hdata : (l ++ "\n" ++ unlines ls).data = l.data ++ '\n' :: (unlines ls).data := by
      simp [String.data_append]
    rw [hdata, linesAux_append l.data hl.1 [] (unlines ls).data]
    simp only [List.reverse_nil, List.nil_append, stripCRl_of_goodLine l hl, List.map_cons]
    rw [show String.mk l.data = l from rfl]
    have := ih hls
    unfold rustLines at this
    rw [this]

/-- Counterexample for C8: with the file content `a\n\nb\n`, the interior
empty line becomes an (empty-string) candidate, so the loaded list is not the
list of non-empty lines. -/
theorem urlfile_empty_line_counterexample :
    load_urls modelLib none (UrlSource.file "a\n\nb\n") = Except.ok (["a", "", "b"], 0) ∧
      "" ∈ ["a", "", "b"] ∧ (["a", "", "b"] : List String) ≠ ["a", "b"] := by
  refine ⟨rfl, by simp, by simp⟩

/-- Claim C8 as amended: URL loading from a file produces one candidate per
line, in file order, with the line terminator stripped; interior empty lines
also become (empty-string) candidates, and the final newline does not add a
candidate. -/
theorem urlfile_one_candidate_per_line (lib : UrlLib) (ls : List String)
    (h : ∀ l ∈ ls, goodLine l) :
    load_urls lib none (UrlSource.file (unlines ls)) = Except.ok (ls, 0) := by
  rw [load_urls_none]
  simp only [initialUrls, rustLines_unlines ls h]

/-- Witness for C8's amended claim: the three lines of `a\n\nb\n` — the empty
middle line included — come back verbatim and in order. -/
theorem urlfile_one_candidate_per_line_witness :
    (∀ l ∈ (["a", "", "b"] : List String), goodLine l) ∧
      unlines ["a", "", "b"] = "a\n\nb\n" ∧
      load_urls modelLib none (UrlSource.file (unlines ["a", "", "b"])) =
        Except.ok (["a", "", "b"], 0) :=
  ⟨by decide, by rfl, urlfile_one_candidate_per_line modelLib ["a", "", "b"] (by decide)⟩

/-- Counterexample for C9: the slow-percentile value 2 lies outside the
interval (0,1], yet configuration resolution accepts it into the plan
unchanged — no range check exists. -/
theorem slow_percentile_out_of_range_accepted :
    (from_cmdline modelLib { baseInp with reportslow := some 2 }).map
        (fun r => r.1.slow_percentile) = Except.ok (some 2) ∧
      ¬((0 : ℚ) < 2 ∧ (2 : ℚ) ≤ 1) :=
  ⟨rfl, by norm_num⟩

/-- Claim C9 as amended: whenever resolution succeeds, the slow-percentile
option is copied into the plan exactly as parsed, with no range validation. -/
theorem slow_percentile_passthrough (lib : UrlLib) (inp : CmdInputs)
    (cfg : Config) (urls ps : List String)
    (h : from_cmdline lib inp = Except.ok (cfg, urls, ps)) :
    cfg.slow_percentile = inp.reportslow := by
  simp only [from_cmdline] at h
  split at h
  · exact Except.noConfusion h
  · split at h
    · exact Except.noConfusion h
    · split at h
      · exact Except.noConfusion h
      · split at h
        · exact Except.noConfusion h
        · injection h with h2
          have hc := congrArg Prod.fst h2
          simp only at hc
          rw [← hc]

/-- Witness for C9's amended claim: a successful run stores the parsed
slow-percentile value in the plan verbatim. -/
theorem slow_percentile_passthrough_witness :
    from_cmdline modelLib { baseInp with reportslow := some (1/2 : ℚ) } =
      Except.ok
        ({ concurrency := 10
           requests := 100
           order := RequestOrder.Random
           delay_ms := 0
           delay_distrib := DelayDistribution.Constant
           slow_percentile := some (1/2 : ℚ)
           http_method := HttpMethod.Get },
         ["http://localhost:8070/abc123?def=456"], []) ∧
      ({ concurrency := 10
         requests := 100
         order := RequestOrder.Random
         delay_ms := 0
         delay_distrib := DelayDistribution.Constant
         slow_percentile := some (1/2 : ℚ)
         http_method := HttpMethod.Get } : Config).slow_percentile =
        ({ baseInp with reportslow := some (1/2 : ℚ) } : CmdInputs).reportslow :=
  ⟨rfl, slow_percentile_passthrough modelLib { baseInp with reportslow := some (1/2 : ℚ) }
    _ _ _ rfl⟩
